import Mathlib

/-!
Verification of `src/gpig/L2_utils.py` (pace-rrs-inversions-pigments).

Shallow embedding conventions:
- Python floats are modelled as `ℚ`; a floating-point NaN ("missing") is
  modelled as `none` in `Option ℚ`, a present value `v` as `some v`.
- `xarray` data arrays are modelled as index functions; the per-pixel grids
  of the box-restricted swath are `Fin m → Fin n → _` functions.
- Fallible operations (Python exceptions) are modelled with `Except`/`Option`.
- Console output (printed notices, progress reports) is modelled by
  accumulating the emitted strings / counter values in the return value.
-/

namespace L2Utils

/-! ## `load_data` (L2_utils.py lines 24-81)

The three `earthaccess.search_data` calls and `earthaccess.download` are
external collaborators; they are modelled by an environment record holding
the result list of each of the three queries and the download function
(which maps a non-empty result list and a folder name to the list of
downloaded file paths). -/

structure AcqEnv where
  l2Results : List String
  salResults : List String
  tempResults : List String
  download : List String → String → List String

inductive LoadError where
  | indexError
deriving DecidableEq

/-- Embedding of `load_data` (lines 46-81).  For each of the three datasets,
the paths are downloaded when the search returned at least one result,
otherwise the path list is empty and a notice is printed.  The final
statement `return L2_paths[0], sal_paths[0], temp_paths[0]` (line 81) indexes
each list at 0, which raises `IndexError` when any list is empty; this is
the `Except.error .indexError` branch. -/
def load_data (env : AcqEnv) : List String × Except LoadError (String × String × String) :=
  let l2paths := if env.l2Results.length > 0 then env.download env.l2Results ("L2_data") else []
  let n1 : List String := if env.l2Results.length > 0 then [] else ["No L2 AOP data found"]
  let salpaths := if env.salResults.length > 0 then env.download env.salResults ("sal_data") else []
  let n2 : List String := if env.salResults.length > 0 then [] else ["No salinity data found"]
  let temppaths := if env.tempResults.length > 0 then env.download env.tempResults ("temp_data") else []
  let n3 : List String := if env.tempResults.length > 0 then [] else ["No temperature data found"]
  match l2paths, salpaths, temppaths with
  | a :: _, b :: _, c :: _ => (n1 ++ n2 ++ n3, Except.ok (a, b, c))
  | _, _, _ => (n1 ++ n2 ++ n3, Except.error LoadError.indexError)

/-- An acquisition environment whose reflectance query returns zero results
while the other two queries succeed. -/
def emptyL2Env : AcqEnv :=
  { l2Results := []
    salResults := ["sal_granule"]
    tempResults := ["temp_granule"]
    download := fun rs _ => rs }

/-! ## `_get_user_boundary` (lines 230-259) and the box-selection loop
(lines 129-159)

Operator input is modelled as a stream `List (Option ℚ)`: `none` is a line
that does not parse as a float (`float(usr_inp)` raises `ValueError`),
`some v` a line parsing to `v`.  The emitted rejection messages are
accumulated in the first component of the result.  `none` as the second
component means the input stream was exhausted before an acceptable value
arrived (the Python loop would still be blocked waiting on the operator). -/

def getUserBoundary (lower upper : ℚ) :
    List (Option ℚ) → List String × Option (ℚ × List (Option ℚ))
  | [] => ([], none)
  | none :: rest =>
    let p := getUserBoundary lower upper rest
    (("Must enter a float.") :: p.1, p.2)
  | some v :: rest =>
    if v < upper ∧ v > lower then ([], some (v, rest))
    else
      let p := getUserBoundary lower upper rest
      (("Value must be between " ++ toString upper ++ " and " ++ toString lower ++ ".") :: p.1, p.2)

/-- A bounding box `(n, s, e, w)` in the order the four values are accepted. -/
abbrev Box := ℚ × ℚ × ℚ × ℚ

/-- The four-prompt sequence of lines 131-134: north within
`(s_bound, n_bound)`, south within `(s_bound, n)`, east within
`(w_bound, e_bound)`, west within `(w_bound, e)`. -/
def promptChain (sb nb wb eb : ℚ) (inputs : List (Option ℚ)) :
    List String × Option (Box × List (Option ℚ)) :=
  match getUserBoundary sb nb inputs with
  | (m1, none) => (m1, none)
  | (m1, some (n, r1)) =>
    match getUserBoundary sb n r1 with
    | (m2, none) => (m1 ++ m2, none)
    | (m2, some (s, r2)) =>
      match getUserBoundary wb eb r2 with
      | (m3, none) => (m1 ++ m2 ++ m3, none)
      | (m3, some (e, r3)) =>
        match getUserBoundary wb e r3 with
        | (m4, none) => (m1 ++ m2 ++ m3 ++ m4, none)
        | (m4, some (w, r4)) => (m1 ++ m2 ++ m3 ++ m4, some ((n, s, e, w), r4))

/-- The two lines printed by the `except ValueError` handler (lines 148-149). -/
def retryMsgs : List String :=
  ["Could not create boundary box. This is most likely due to the PACE level 2 data file coordinate system not being girdded.",
   "Try increasing the size of the boundary box."]

/-- The `while True: try ... except ValueError` loop of lines 129-150.  The
box restriction of the reflectance subset (`dataset_r["Rrs"].where(..., drop=True)`,
lines 136-144) is the only fallible operation inside the `try`; it is
modelled by the parameter `rR`.  On failure the whole four-prompt sequence
restarts after printing `retryMsgs`.  `fuel` bounds the number of attempts
(the Python loop is unbounded); `none` means no attempt succeeded within
`fuel` attempts or the input stream ran dry. -/
def selectRrsBox {G : Type} (rR : Box → Except Unit G) (sb nb wb eb : ℚ) :
    ℕ → List (Option ℚ) → List String × Option (Box × G × List (Option ℚ))
  | 0, _ => ([], none)
  | fuel + 1, inputs =>
    match promptChain sb nb wb eb inputs with
    | (ms, none) => (ms, none)
    | (ms, some (box, rest)) =>
      match rR box with
      | Except.ok g => (ms, some (box, g, rest))
      | Except.error _ =>
        let p := selectRrsBox rR sb nb wb eb fuel rest
        (ms ++ retryMsgs ++ p.1, p.2)

/-- Lines 129-159 as a whole: the retry loop produces the accepted box and
the reflectance subset, and then — outside the loop and outside any
`try` — the uncertainty subset is restricted to the same box
(`dataset_ru["Rrs_unc"].where(..., drop=True)`, lines 151-159, modelled by
`rRU`).  A `ValueError` raised there propagates to the caller, which is the
`some (Except.error _)` outcome. -/
def selectBoxes {G : Type} (rR rRU : Box → Except Unit G) (sb nb wb eb : ℚ)
    (fuel : ℕ) (inputs : List (Option ℚ)) :
    List String × Option (Except Unit (Box × G × G)) :=
  match selectRrsBox rR sb nb wb eb fuel inputs with
  | (ms, none) => (ms, none)
  | (ms, some (box, g, _rest)) =>
    match rRU box with
    | Except.ok u => (ms, some (Except.ok (box, g, u)))
    | Except.error e => (ms, some (Except.error e))

/-! ### Lemmas about the prompt machinery -/

theorem getUserBoundary_accept_bounds (lower upper : ℚ) :
    ∀ (inputs : List (Option ℚ)) (ms : List String) (v : ℚ) (rest : List (Option ℚ)),
      getUserBoundary lower upper inputs = (ms, some (v, rest)) →
      lower < v ∧ v < upper := by
  intro inputs
  induction inputs with
  | nil => intro ms v rest h; simp [getUserBoundary] at h
  | cons head tail ih =>
    intro ms v rest h
    rcases hp : getUserBoundary lower upper tail with ⟨pm, po⟩
    cases head with
    | none =>
      simp only [getUserBoundary, hp] at h
      simp only [Prod.mk.injEq] at h
      rcases h with ⟨-, h⟩
      subst h
      exact ih pm v rest hp
    | some u =>
      simp only [getUserBoundary] at h
      by_cases hc : u < upper ∧ u > lower
      · rw [if_pos hc] at h
        simp only [Prod.mk.injEq, Option.some.injEq] at h
        obtain ⟨-, rfl, -⟩ := h
        exact ⟨hc.2, hc.1⟩
      · rw [if_neg hc] at h
        simp only [hp, Prod.mk.injEq] at h
        rcases h with ⟨-, h⟩
        subst h
        exact ih pm v rest hp

theorem promptChain_accept_bounds (sb nb wb eb : ℚ) (inputs : List (Option ℚ))
    (ms : List String) (n s e w : ℚ) (rest : List (Option ℚ))
    (h : promptChain sb nb wb eb inputs = (ms, some ((n, s, e, w), rest))) :
    (sb < n ∧ n < nb) ∧ (sb < s ∧ s < n) ∧ (wb < e ∧ e < eb) ∧ (wb < w ∧ w < e) := by
  rcases h1 : getUserBoundary sb nb inputs with ⟨m1, o1⟩
  cases o1 with
  | none => simp [promptChain, h1] at h
  | some p1 =>
    rcases p1 with ⟨n1, r1⟩
    rcases h2 : getUserBoundary sb n1 r1 with ⟨m2, o2⟩
    cases o2 with
    | none => simp [promptChain, h1, h2] at h
    | some p2 =>
      rcases p2 with ⟨s1, r2⟩
      rcases h3 : getUserBoundary wb eb r2 with ⟨m3, o3⟩
      cases o3 with
      | none => simp [promptChain, h1, h2, h3] at h
      | some p3 =>
        rcases p3 with ⟨e1, r3⟩
        rcases h4 : getUserBoundary wb e1 r3 with ⟨m4, o4⟩
        cases o4 with
        | none => simp [promptChain, h1, h2, h3, h4] at h
        | some p4 =>
          rcases p4 with ⟨w1, r4⟩
          simp only [promptChain, h1, h2, h3, h4, Prod.mk.injEq, Option.some.injEq] at h
          obtain ⟨-, ⟨⟨rfl, rfl, rfl, rfl⟩, -⟩⟩ := h
          exact ⟨getUserBoundary_accept_bounds sb nb inputs m1 n1 r1 h1,
                 getUserBoundary_accept_bounds sb n1 r1 m2 s1 r2 h2,
                 getUserBoundary_accept_bounds wb eb r2 m3 e1 r3 h3,
                 getUserBoundary_accept_bounds wb e1 r3 m4 w1 r4 h4⟩

/-! ### Claim C3 -/

/-- C3: in `load_data`, an empty query result for any of the three datasets is
indeed reported with a notice, but the step does NOT complete without an index
error: the unconditional `return L2_paths[0], sal_paths[0], temp_paths[0]`
(line 81) indexes the empty path list.  Evaluated here at an environment whose
reflectance query returns zero results: the notice is emitted and the step
ends in `IndexError`, contradicting the claim (and the spec's stated intent). -/
theorem load_data_empty_result_crashes :
    load_data emptyL2Env
      = (["No L2 AOP data found"], Except.error LoadError.indexError) := rfl

/-! ### Claim C6 -/

/-- C6: each prompt repeats until the input parses and lies strictly between
its limits (south bounded above by the accepted north, west by the accepted
east), so every accepted box satisfies south < north and west < east; a
non-parsing or out-of-range input is consumed with a rejection message and
the prompt recurses instead of crashing. -/
theorem user_boundary_validation (sb nb wb eb : ℚ) (inputs : List (Option ℚ))
    (ms : List String) (n s e w : ℚ) (rest : List (Option ℚ))
    (hacc : promptChain sb nb wb eb inputs = (ms, some ((n, s, e, w), rest))) :
    ((sb < n ∧ n < nb) ∧ (sb < s ∧ s < n) ∧ (wb < e ∧ e < eb) ∧ (wb < w ∧ w < e)
      ∧ s < n ∧ w < e)
    ∧ (∀ (lo hi : ℚ) (tl : List (Option ℚ)),
        getUserBoundary lo hi (none :: tl)
          = (("Must enter a float.") :: (getUserBoundary lo hi tl).1,
             (getUserBoundary lo hi tl).2))
    ∧ (∀ (lo hi v : ℚ) (tl : List (Option ℚ)), ¬ (lo < v ∧ v < hi) →
        getUserBoundary lo hi (some v :: tl)
          = (("Value must be between " ++ toString hi ++ " and " ++ toString lo ++ ".")
               :: (getUserBoundary lo hi tl).1,
             (getUserBoundary lo hi tl).2)) := by
  refine ⟨?_, ?_, ?_⟩
  · obtain ⟨b1, b2, b3, b4⟩ := promptChain_accept_bounds sb nb wb eb inputs ms n s e w rest hacc
    exact ⟨b1, b2, b3, b4, b2.2, b4.2⟩
  · intro lo hi tl
    simp [getUserBoundary]
  · intro lo hi v tl hv
    have hv2 : ¬ (v < hi ∧ v > lo) := fun hx => hv ⟨hx.2, hx.1⟩
    simp [getUserBoundary, if_neg hv2]

/-- Witness for C6 at a concrete prompt session: one non-numeric line, one
out-of-range line, then four accepted bounds (5, 2, 5, 2). -/
theorem user_boundary_validation_witness :
    promptChain 0 10 0 10 [none, some 20, some 5, some 2, some 5, some 2]
        = (["Must enter a float.", "Value must be between 10 and 0."],
           some ((5, 2, 5, 2), []))
    ∧ (((0 : ℚ) < 5 ∧ (5 : ℚ) < 10) ∧ ((0 : ℚ) < 2 ∧ (2 : ℚ) < 5)
        ∧ ((0 : ℚ) < 5 ∧ (5 : ℚ) < 10) ∧ ((0 : ℚ) < 2 ∧ (2 : ℚ) < 5)
        ∧ (2 : ℚ) < 5 ∧ (2 : ℚ) < 5)
      ∧ (∀ (lo hi : ℚ) (tl : List (Option ℚ)),
          getUserBoundary lo hi (none :: tl)
            = (("Must enter a float.") :: (getUserBoundary lo hi tl).1,
               (getUserBoundary lo hi tl).2))
      ∧ (∀ (lo hi v : ℚ) (tl : List (Option ℚ)), ¬ (lo < v ∧ v < hi) →
          getUserBoundary lo hi (some v :: tl)
            = (("Value must be between " ++ toString hi ++ " and " ++ toString lo ++ ".")
                 :: (getUserBoundary lo hi tl).1,
               (getUserBoundary lo hi tl).2)) :=
  ⟨by decide,
   user_boundary_validation 0 10 0 10 [none, some 20, some 5, some 2, some 5, some 2]
     ["Must enter a float.", "Value must be between 10 and 0."] 5 2 5 2 [] (by decide)⟩

/-! ### Claim C4 -/

/-- Inputs for the concrete C4 scenario: a first attempt accepting box
(5, 2, 5, 2) and a second attempt accepting box (6, 1, 6, 1). -/
def cexInputs : List (Option ℚ) :=
  [some 5, some 2, some 5, some 2, some 6, some 1, some 6, some 1]

def cexRest : List (Option ℚ) := [some 6, some 1, some 6, some 1]

def cexBox : Box := (5, 2, 5, 2)

/-- Reflectance-subset restriction that fails structurally on the first box
and succeeds on any other. -/
def cexRR : Box → Except Unit Unit :=
  fun b => if b = cexBox then Except.error () else Except.ok ()

/-- Uncertainty-subset restriction that always fails structurally. -/
def cexRRU : Box → Except Unit Unit := fun _ => Except.error ()

/-- C4 counterexample: the claim says a structural failure of either box
restriction is recovered by restarting the prompts and is never propagated to
the caller.  But the uncertainty-subset restriction (lines 151-159) runs
after the retry loop, outside any `try`: with a reflectance restriction that
succeeds and an uncertainty restriction that raises, the structural error
reaches the caller. -/
theorem unc_restriction_error_propagates :
    (selectBoxes (fun _ => Except.ok ()) (fun _ => Except.error ()) 0 10 0 10 1
        [some 5, some 2, some 5, some 2]).2
      = some (Except.error ()) := rfl

/-- C4 (amended): a structural failure of the REFLECTANCE subset restriction
restarts the whole four-prompt sequence after printing the retry guidance and
is never propagated; the UNCERTAINTY subset is restricted outside the retry
loop, and the only structural errors the caller can observe are those raised
by the uncertainty restriction on the accepted box. -/
theorem box_retry_covers_only_rrs {G : Type} (rR rRU : Box → Except Unit G)
    (sb nb wb eb : ℚ) (fuel : ℕ) (inputs : List (Option ℚ))
    (m1 : List String) (box : Box) (rest : List (Option ℚ)) (e : Unit) :
    ((promptChain sb nb wb eb inputs = (m1, some (box, rest)) ∧ rR box = Except.error ()) →
      selectRrsBox rR sb nb wb eb (fuel + 1) inputs
        = (m1 ++ retryMsgs ++ (selectRrsBox rR sb nb wb eb fuel rest).1,
           (selectRrsBox rR sb nb wb eb fuel rest).2))
    ∧ ((selectBoxes rR rRU sb nb wb eb fuel inputs).2 = some (Except.error e) →
      ∃ ms box2 g rest2,
        selectRrsBox rR sb nb wb eb fuel inputs = (ms, some (box2, g, rest2))
        ∧ rRU box2 = Except.error e) := by
  constructor
  · rintro ⟨hpc, herr⟩
    simp only [selectRrsBox, hpc, herr]
  · intro hb
    rcases hsel : selectRrsBox rR sb nb wb eb fuel inputs with ⟨ms, o⟩
    cases o with
    | none => simp [selectBoxes, hsel] at hb
    | some t =>
      rcases t with ⟨box2, g, rest2⟩
      cases hu : rRU box2 with
      | error e2 =>
        cases e ; cases e2
        exact ⟨ms, box2, g, rest2, rfl, hu⟩
      | ok u => simp [selectBoxes, hsel, hu] at hb

/-- Witness for C4 (amended) at the concrete scenario: the first attempt's
box makes the reflectance restriction fail (so the prompts restart), the
second attempt succeeds, and the always-failing uncertainty restriction
propagates its error to the caller. -/
theorem box_retry_covers_only_rrs_witness :
    (promptChain 0 10 0 10 cexInputs = ([], some (cexBox, cexRest))
        ∧ cexRR cexBox = Except.error ())
    ∧ (selectBoxes cexRR cexRRU 0 10 0 10 2 cexInputs).2 = some (Except.error ())
    ∧ selectRrsBox cexRR 0 10 0 10 3 cexInputs
        = ([] ++ retryMsgs ++ (selectRrsBox cexRR 0 10 0 10 2 cexRest).1,
           (selectRrsBox cexRR 0 10 0 10 2 cexRest).2)
    ∧ (∃ ms box2 g rest2,
        selectRrsBox cexRR 0 10 0 10 2 cexInputs = (ms, some (box2, g, rest2))
        ∧ cexRRU box2 = Except.error ()) :=
  ⟨⟨by decide, rfl⟩,
   rfl,
   (box_retry_covers_only_rrs cexRR cexRRU 0 10 0 10 2 cexInputs [] cexBox cexRest ()).1
     ⟨by decide, rfl⟩,
   (box_retry_covers_only_rrs cexRR cexRRU 0 10 0 10 2 cexInputs [] cexBox cexRest ()).2
     rfl⟩

/-! ## Auxiliary fields and the Grid Aligner (lines 161-171)

An auxiliary scalar field (salinity, temperature) is modelled by its two
coordinate axes (lists of labels) and a value function over coordinate
labels; a missing (NaN) sample is `none`.  Label-based `sel` with a `slice`
on a monotonic axis keeps the labels lying between the two slice ends in the
axis's own order: on a monotonically increasing axis `slice(a, b)` keeps
`a ≤ x ≤ b`, on a monotonically decreasing axis it keeps `b ≤ x ≤ a`.
`interp(..., method='nearest')` looks up the nearest axis label per axis
independently; coordinates outside the axis extents get the NaN fill value. -/

structure AuxField where
  latAxis : List ℚ
  lonAxis : List ℚ
  val : ℚ → ℚ → Option ℚ

/-- A field with a leading time axis, as `analysed_sst` before `squeeze()`. -/
structure TimedAuxField where
  timeAxis : List ℚ
  latAxis : List ℚ
  lonAxis : List ℚ
  val : ℚ → ℚ → ℚ → Option ℚ

/-- `squeeze()` on a field whose time axis is a singleton: the time dimension
is dropped and values are read at the lone time label. -/
def squeezeTime (F : TimedAuxField) : AuxField :=
  { latAxis := F.latAxis, lonAxis := F.lonAxis, val := F.val F.timeAxis.headI }

/-- Label-based `slice` selection on one monotonic axis. -/
def selSliceAxis (ascending : Bool) (a b : ℚ) (axis : List ℚ) : List ℚ :=
  if ascending then axis.filter (fun x => decide (a ≤ x ∧ x ≤ b))
  else axis.filter (fun x => decide (b ≤ x ∧ x ≤ a))

/-- Pre-restriction of the salinity field (line 162):
`sal.sel({"latitude": slice(n, s), "longitude": slice(w, e)})`. -/
def salRestrict (latAsc lonAsc : Bool) (F : AuxField) (n s e w : ℚ) : AuxField :=
  { latAxis := selSliceAxis latAsc n s F.latAxis
    lonAxis := selSliceAxis lonAsc w e F.lonAxis
    val := F.val }

/-- `temp - 273` (line 167): Kelvin-to-Celsius conversion of every sample;
a missing sample stays missing. -/
def subKelvin (F : AuxField) : AuxField :=
  { F with val := fun la lo => (F.val la lo).map (fun v => v - 273) }

/-- Pre-restriction and conversion of the temperature field (lines 164-167):
`squeeze()`, then `sel({"lat": slice(s, n), "lon": slice(w, e)})`, then
`- 273`. -/
def tempRestrict (latAsc lonAsc : Bool) (F : TimedAuxField) (n s e w : ℚ) : AuxField :=
  let A := squeezeTime F
  subKelvin
    { A with
      latAxis := selSliceAxis latAsc s n A.latAxis
      lonAxis := selSliceAxis lonAsc w e A.lonAxis }

/-- The axis label nearest to `x` (the earlier label wins a tie). -/
def nearestIn (x : ℚ) : List ℚ → Option ℚ
  | [] => none
  | c :: rest =>
    match nearestIn x rest with
    | none => some c
    | some b => if |b - x| < |c - x| then some b else some c

/-- Whether `x` lies within the extent `[min axis, max axis]` of an axis. -/
def inExtent (axis : List ℚ) (x : ℚ) : Bool :=
  (axis.any (fun c => decide (c ≤ x))) && (axis.any (fun c => decide (x ≤ c)))

/-- `interp(..., method='nearest')` at one target coordinate pair: per-axis
independent nearest-label lookup, with the NaN fill value outside the axis
extents (`xarray.interp` defaults `bounds_error=False, fill_value=nan`). -/
def interpNearest (F : AuxField) (lat lon : ℚ) : Option ℚ :=
  if inExtent F.latAxis lat ∧ inExtent F.lonAxis lon then
    match nearestIn lat F.latAxis, nearestIn lon F.lonAxis with
    | some la, some lo => F.val la lo
    | _, _ => none
  else none

/-- Lines 161-162 and 170: the aligned salinity value at one swath pixel. -/
def alignedSal (latAsc lonAsc : Bool) (F : AuxField) (n s e w lat lon : ℚ) : Option ℚ :=
  interpNearest (salRestrict latAsc lonAsc F n s e w) lat lon

/-- Lines 164-167 and 171: the aligned temperature value at one swath pixel. -/
def alignedTemp (latAsc lonAsc : Bool) (F : TimedAuxField) (n s e w lat lon : ℚ) : Option ℚ :=
  interpNearest (tempRestrict latAsc lonAsc F n s e w) lat lon

/-! ### Correctness of the nearest-label lookup -/

theorem nearestIn_eq_none_iff (x : ℚ) :
    ∀ (axis : List ℚ), nearestIn x axis = none ↔ axis = [] := by
  intro axis
  cases axis with
  | nil => simp [nearestIn]
  | cons c rest =>
    simp only [nearestIn]
    constructor
    · intro h
      cases hr : nearestIn x rest with
      | none => rw [hr] at h; simp at h
      | some b =>
        rw [hr] at h
        by_cases hlt : |b - x| < |c - x| <;> simp [hlt] at h
    · intro h; exact absurd h (List.cons_ne_nil c rest)

theorem nearestIn_spec (x : ℚ) :
    ∀ (axis : List ℚ) (c : ℚ), nearestIn x axis = some c →
      c ∈ axis ∧ ∀ d ∈ axis, |c - x| ≤ |d - x| := by
  intro axis
  induction axis with
  | nil => intro c h; simp [nearestIn] at h
  | cons a rest ih =>
    intro c h
    simp only [nearestIn] at h
    cases hr : nearestIn x rest with
    | none =>
      rw [hr] at h
      obtain rfl : a = c := by simpa using h
      have hre : rest = [] := (nearestIn_eq_none_iff x rest).mp hr
      subst hre
      simp
    | some b =>
      simp only [hr] at h
      obtain ⟨hb, hmin⟩ := ih b hr
      by_cases hlt : |b - x| < |a - x|
      · rw [if_pos hlt] at h
        obtain rfl : b = c := by simpa using h
        refine ⟨List.mem_cons_of_mem a hb, ?_⟩
        intro d hd
        rcases List.mem_cons.mp hd with rfl | hd2
        · exact le_of_lt hlt
        · exact hmin d hd2
      · rw [if_neg hlt] at h
        obtain rfl : a = c := by simpa using h
        refine ⟨List.mem_cons_self a rest, ?_⟩
        intro d hd
        rcases List.mem_cons.mp hd with rfl | hd2
        · exact le_refl _
        · exact le_trans (le_of_not_lt hlt) (hmin d hd2)

/-! ### Claim C8 -/

/-- A concrete salinity field for the C8 counterexample: a single sample at
latitude 4, longitude 0, with the valid value 1 everywhere. -/
def cexSalField : AuxField := ⟨[4], [0], fun _ _ => some 1⟩

/-- C8 counterexample: the claim says the aligned value at EVERY swath pixel
equals the auxiliary field's value at the nearest grid point.  For the pixel
at (lat 8, lon 0) — inside the accepted box n=10, s=3, e=1, w=-1, so the
driver does visit it — the restricted salinity axis extent is [4, 4]; the
pixel is outside it, so `interp` yields the NaN fill value `none`, although
the nearest sample (latitude 4) holds the valid value 1. -/
theorem aligned_value_not_always_nearest :
    alignedSal false true cexSalField 10 3 1 (-1) 8 0 = none
    ∧ nearestIn 8 (salRestrict false true cexSalField 10 3 1 (-1)).latAxis = some 4
    ∧ nearestIn 0 (salRestrict false true cexSalField 10 3 1 (-1)).lonAxis = some 0
    ∧ (salRestrict false true cexSalField 10 3 1 (-1)).val 4 0 = some 1 := by
  refine ⟨rfl, rfl, rfl, rfl⟩

/-- C8 (amended): for every swath pixel whose coordinates lie within the
extents of the (pre-restricted) auxiliary field's axes, the aligned value is
obtained by nearest-neighbor lookup independently per axis: it equals the
field's value at the per-axis-nearest grid point (so a missing nearest
sample propagates as a missing aligned value); pixels outside the extents
get the missing fill value. -/
theorem aligned_value_nearest_within_extents (F : AuxField) (lat lon la lo : ℚ)
    (hin1 : inExtent F.latAxis lat = true) (hin2 : inExtent F.lonAxis lon = true)
    (hla : nearestIn lat F.latAxis = some la) (hlo : nearestIn lon F.lonAxis = some lo) :
    interpNearest F lat lon = F.val la lo
    ∧ (la ∈ F.latAxis ∧ ∀ d ∈ F.latAxis, |la - lat| ≤ |d - lat|)
    ∧ (lo ∈ F.lonAxis ∧ ∀ d ∈ F.lonAxis, |lo - lon| ≤ |d - lon|)
    ∧ (F.val la lo = none → interpNearest F lat lon = none) := by
  have hval : interpNearest F lat lon = F.val la lo := by
    unfold interpNearest
    rw [if_pos ⟨hin1, hin2⟩, hla, hlo]
  exact ⟨hval, nearestIn_spec lat F.latAxis la hla, nearestIn_spec lon F.lonAxis lo hlo,
         fun hnone => hval.trans hnone⟩

/-- Witness for C8 (amended): a 2×1-sample field; the pixel at (lat 3, lon 0)
is within the extents and picks the sample at latitude 2 (value 7). -/
theorem aligned_value_nearest_within_extents_witness :
    inExtent (⟨[0, 2], [0], fun la _ => if la = 2 then some 7 else some 5⟩ : AuxField).latAxis 1 = true
    ∧ inExtent (⟨[0, 2], [0], fun la _ => if la = 2 then some 7 else some 5⟩ : AuxField).lonAxis 0 = true
    ∧ nearestIn 1 (⟨[0, 2], [0], fun la _ => if la = 2 then some 7 else some 5⟩ : AuxField).latAxis = some 0
    ∧ nearestIn 0 (⟨[0, 2], [0], fun la _ => if la = 2 then some 7 else some 5⟩ : AuxField).lonAxis = some 0
    ∧ interpNearest (⟨[0, 2], [0], fun la _ => if la = 2 then some 7 else some 5⟩ : AuxField) 1 0
        = (⟨[0, 2], [0], fun la _ => if la = 2 then some 7 else some 5⟩ : AuxField).val 0 0 :=
  ⟨by decide, by decide, by norm_num [nearestIn], by norm_num [nearestIn],
   (aligned_value_nearest_within_extents
      (⟨[0, 2], [0], fun la _ => if la = 2 then some 7 else some 5⟩ : AuxField) 1 0 0 0
      (by decide) (by decide) (by norm_num [nearestIn]) (by norm_num [nearestIn])).1⟩

/-! ### Claim C7 -/

/-- C7: for every temperature sample, the aligned Celsius value equals the
source Kelvin value minus 273 (not 273.15); the conversion (`subKelvin`,
line 167) is applied before the nearest-neighbor alignment (line 171), and
the singleton time axis is dropped by `squeeze()` (line 165), so values are
read at the lone time label `t0`. -/
theorem temp_alignment_kelvin_minus_273 (latAsc lonAsc : Bool) (F : TimedAuxField)
    (t0 n s e w lat lon la lo k : ℚ)
    (htime : F.timeAxis = [t0])
    (hin1 : inExtent (tempRestrict latAsc lonAsc F n s e w).latAxis lat = true)
    (hin2 : inExtent (tempRestrict latAsc lonAsc F n s e w).lonAxis lon = true)
    (hla : nearestIn lat (tempRestrict latAsc lonAsc F n s e w).latAxis = some la)
    (hlo : nearestIn lon (tempRestrict latAsc lonAsc F n s e w).lonAxis = some lo)
    (hk : F.val t0 la lo = some k) :
    alignedTemp latAsc lonAsc F n s e w lat lon = some (k - 273) := by
  unfold alignedTemp interpNearest
  rw [if_pos ⟨hin1, hin2⟩, hla, hlo]
  simp only [tempRestrict, subKelvin, squeezeTime, htime, List.headI, hk]
  rfl

/-- Witness for C7 at a concrete temperature field with a singleton time
axis, one retained latitude sample and one longitude sample, Kelvin value
301 everywhere. -/
theorem temp_alignment_kelvin_minus_273_witness :
    ((⟨[0], [1], [3], fun _ _ _ => some 301⟩ : TimedAuxField).timeAxis = [0])
    ∧ inExtent (tempRestrict true true (⟨[0], [1], [3], fun _ _ _ => some 301⟩ : TimedAuxField) 10 0 5 0).latAxis 1 = true
    ∧ inExtent (tempRestrict true true (⟨[0], [1], [3], fun _ _ _ => some 301⟩ : TimedAuxField) 10 0 5 0).lonAxis 3 = true
    ∧ nearestIn 1 (tempRestrict true true (⟨[0], [1], [3], fun _ _ _ => some 301⟩ : TimedAuxField) 10 0 5 0).latAxis = some 1
    ∧ nearestIn 3 (tempRestrict true true (⟨[0], [1], [3], fun _ _ _ => some 301⟩ : TimedAuxField) 10 0 5 0).lonAxis = some 3
    ∧ (⟨[0], [1], [3], fun _ _ _ => some 301⟩ : TimedAuxField).val 0 1 3 = some 301
    ∧ alignedTemp true true (⟨[0], [1], [3], fun _ _ _ => some 301⟩ : TimedAuxField) 10 0 5 0 1 3
        = some (301 - 273) :=
  ⟨rfl, by decide, by decide, by decide, by decide, rfl,
   temp_alignment_kelvin_minus_273 true true ⟨[0], [1], [3], fun _ _ _ => some 301⟩
     0 10 0 5 0 1 3 1 3 301 rfl (by decide) (by decide) (by decide) (by decide) rfl⟩

/-! ### Claim C10 -/

/-- C10: the salinity pre-restriction slices latitude from north down to
south (`slice(n, s)`, line 162), so it retains the samples between south and
north only on a DESCENDING latitude axis and is empty on an ascending one;
the temperature pre-restriction slices from south up to north
(`slice(s, n)`, line 166), so it retains them only on an ASCENDING axis and
is empty on a descending one.  An emptied salinity field aligns to missing
at every swath pixel. -/
theorem aux_pre_restriction_orientation (lonAsc : Bool) (s n e w : ℚ) (hs : s < n)
    (F : AuxField) (Ft : TimedAuxField) :
    (salRestrict false lonAsc F n s e w).latAxis
        = F.latAxis.filter (fun x => decide (s ≤ x ∧ x ≤ n))
    ∧ (salRestrict true lonAsc F n s e w).latAxis = []
    ∧ (tempRestrict true lonAsc Ft n s e w).latAxis
        = Ft.latAxis.filter (fun x => decide (s ≤ x ∧ x ≤ n))
    ∧ (tempRestrict false lonAsc Ft n s e w).latAxis = []
    ∧ (∀ lat lon, alignedSal true lonAsc F n s e w lat lon = none) := by
  have hempty : ∀ (axis : List ℚ), axis.filter (fun x => decide (n ≤ x ∧ x ≤ s)) = [] := by
    intro axis
    rw [List.filter_eq_nil_iff]
    intro a _
    simp only [decide_eq_true_eq]
    rintro ⟨h1, h2⟩
    exact absurd (lt_of_lt_of_le hs (le_trans h1 h2)) (lt_irrefl s)
  have hsal : (salRestrict true lonAsc F n s e w).latAxis = [] := by
    simp only [salRestrict, selSliceAxis, if_pos]
    exact hempty F.latAxis
  refine ⟨rfl, hsal, rfl, ?_, ?_⟩
  · simp only [tempRestrict, subKelvin, squeezeTime, selSliceAxis]
    exact hempty Ft.latAxis
  · intro lat lon
    unfold alignedSal interpNearest
    rw [if_neg]
    rw [hsal]
    rintro ⟨h1, -⟩
    simp [inExtent] at h1

/-- Witness for C10: s = 1 < 2 = n, a salinity axis holding the single
latitude 3/2 and a temperature field with the same latitude axis. -/
theorem aux_pre_restriction_orientation_witness :
    (1 : ℚ) < 2
    ∧ ((salRestrict false true (⟨[3/2], [0], fun _ _ => some 1⟩ : AuxField) 2 1 5 0).latAxis
        = ([3/2] : List ℚ).filter (fun x => decide ((1 : ℚ) ≤ x ∧ x ≤ 2))
      ∧ (salRestrict true true (⟨[3/2], [0], fun _ _ => some 1⟩ : AuxField) 2 1 5 0).latAxis = []
      ∧ (tempRestrict true true (⟨[0], [3/2], [0], fun _ _ _ => some 280⟩ : TimedAuxField) 2 1 5 0).latAxis
        = ([3/2] : List ℚ).filter (fun x => decide ((1 : ℚ) ≤ x ∧ x ≤ 2))
      ∧ (tempRestrict false true (⟨[0], [3/2], [0], fun _ _ _ => some 280⟩ : TimedAuxField) 2 1 5 0).latAxis = []
      ∧ (∀ lat lon, alignedSal true true (⟨[3/2], [0], fun _ _ => some 1⟩ : AuxField) 2 1 5 0 lat lon = none)) :=
  ⟨by norm_num,
   aux_pre_restriction_orientation true 1 2 5 0 (by norm_num)
     (⟨[3/2], [0], fun _ _ => some 1⟩ : AuxField)
     (⟨[0], [3/2], [0], fun _ _ _ => some 280⟩ : TimedAuxField)⟩

/-! ## The pixel-wise inversion driver (lines 173-200)

The box-restricted grids are `Fin m → Fin n → _` functions ((scan-line,
pixel) indices).  A per-pixel Rrs spectrum is a band-indexed function; its
leading value `r[0]` is the value at band 0.  The external
`rrs_inversion_pigments` function is a parameter returning a list of result
groups, each a 4-tuple `(chla, chlb, chlc, ppc)` (the spec interface says at
least one group of exactly four ordered scalars); the driver takes group
`[0]`.  The loop is the row-major fold of `driverStep` over `cellList`;
the state carries the `progress` counter, the emitted counter values, the
performed inversion calls (instrumentation recording the exact arguments of
each invocation) and the four pigment grids. -/

abbrev Spectrum := ℕ → Option ℚ

abbrev Pig4 := ℚ × ℚ × ℚ × ℚ

/-- Record of one invocation of the inversion function: the cell it was made
for and the exact arguments `(r, ru, wavelength_coords, temp_val, sal_val)`
of line 194. -/
structure InvCall (m n : ℕ) where
  cell : Fin m × Fin n
  r : Spectrum
  ru : Spectrum
  wl : List ℚ
  temp : ℚ
  sal : ℚ

structure DriverState (m n : ℕ) where
  progress : ℕ
  emitted : List ℕ
  calls : List (InvCall m n)
  chla : Fin m → Fin n → Option ℚ
  chlb : Fin m → Fin n → Option ℚ
  chlc : Fin m → Fin n → Option ℚ
  ppc : Fin m → Fin n → Option ℚ

/-- The inputs of the driver loop: the box-restricted reflectance and
uncertainty grids, the wavelength coordinates, the two aligned auxiliary
grids, and the external inversion function. -/
structure DriverInputs (m n : ℕ) where
  rrs : Fin m → Fin n → Spectrum
  rrsUnc : Fin m → Fin n → Spectrum
  wl : List ℚ
  sal : Fin m → Fin n → Option ℚ
  temp : Fin m → Fin n → Option ℚ
  inv : Spectrum → Spectrum → List ℚ → ℚ → ℚ → List Pig4

/-- In-place update of one cell of a pigment grid
(`rrs_box['chla'][i][j] = pigs[0]`, lines 195-198). -/
def setCell {m n : ℕ} (g : Fin m → Fin n → Option ℚ) (i : Fin m) (j : Fin n) (v : ℚ) :
    Fin m → Fin n → Option ℚ :=
  fun i2 j2 => if i2 = i ∧ j2 = j then some v else g i2 j2

/-- Lines 173-178: the four pigment grids are allocated at the
box-restricted shape, `np.full(..., np.nan)`, and `progress = 1`. -/
def initState (m n : ℕ) : DriverState m n :=
  { progress := 1
    emitted := []
    calls := []
    chla := fun _ _ => none
    chlb := fun _ _ => none
    chlc := fun _ _ => none
    ppc := fun _ _ => none }

/-- One iteration of the inner loop body (lines 184-198): emit the progress
counter, advance it, and then — unless `r[0]`, `sal_val` or `temp_val` is
NaN (line 193) — invoke the inversion function, take result group `[0]` and
write its four components into the pigment grids. -/
def driverStep {m n : ℕ} (D : DriverInputs m n) (st : DriverState m n)
    (c : Fin m × Fin n) : DriverState m n :=
  let st1 : DriverState m n :=
    { st with emitted := st.emitted ++ [st.progress], progress := st.progress + 1 }
  match D.rrs c.1 c.2 0, D.sal c.1 c.2, D.temp c.1 c.2 with
  | some _, some salv, some tempv =>
    let pigs := (D.inv (D.rrs c.1 c.2) (D.rrsUnc c.1 c.2) D.wl tempv salv).headI
    { st1 with
      calls := st1.calls ++ [⟨c, D.rrs c.1 c.2, D.rrsUnc c.1 c.2, D.wl, tempv, salv⟩]
      chla := setCell st1.chla c.1 c.2 pigs.1
      chlb := setCell st1.chlb c.1 c.2 pigs.2.1
      chlc := setCell st1.chlc c.1 c.2 pigs.2.2.1
      ppc := setCell st1.ppc c.1 c.2 pigs.2.2.2 }
  | _, _, _ => st1

/-- The row-major cell order of the nested loops (lines 182-183). -/
def cellList (m n : ℕ) : List (Fin m × Fin n) :=
  (List.finRange m).flatMap (fun i => (List.finRange n).map (fun j => (i, j)))

/-- The whole driver loop (lines 178-198). -/
def runDriver {m n : ℕ} (D : DriverInputs m n) : DriverState m n :=
  (cellList m n).foldl (driverStep D) (initState m n)

/-! ### Properties of one step -/

theorem driverStep_progress {m n : ℕ} (D : DriverInputs m n) (st : DriverState m n)
    (c : Fin m × Fin n) :
    (driverStep D st c).progress = st.progress + 1
    ∧ (driverStep D st c).emitted = st.emitted ++ [st.progress] := by
  unfold driverStep
  cases D.rrs c.1 c.2 0 <;> cases D.sal c.1 c.2 <;> cases D.temp c.1 c.2 <;>
    exact ⟨rfl, rfl⟩

theorem driverStep_calls {m n : ℕ} (D : DriverInputs m n) (st : DriverState m n)
    (c : Fin m × Fin n) :
    ∃ new, (driverStep D st c).calls = st.calls ++ new ∧ ∀ cl ∈ new, cl.cell = c := by
  unfold driverStep
  cases D.rrs c.1 c.2 0 <;> cases D.sal c.1 c.2 <;> cases D.temp c.1 c.2
  case some.some.some _ salv tempv =>
    exact ⟨[⟨c, D.rrs c.1 c.2, D.rrsUnc c.1 c.2, D.wl, tempv, salv⟩], rfl, by simp⟩
  all_goals exact ⟨[], by simp, by simp⟩

theorem driverStep_other_cell {m n : ℕ} (D : DriverInputs m n) (st : DriverState m n)
    (c x : Fin m × Fin n) (hne : x ≠ c) :
    (driverStep D st c).chla x.1 x.2 = st.chla x.1 x.2
    ∧ (driverStep D st c).chlb x.1 x.2 = st.chlb x.1 x.2
    ∧ (driverStep D st c).chlc x.1 x.2 = st.chlc x.1 x.2
    ∧ (driverStep D st c).ppc x.1 x.2 = st.ppc x.1 x.2 := by
  have hcond : ¬ (x.1 = c.1 ∧ x.2 = c.2) := by
    intro hx
    exact hne (Prod.ext hx.1 hx.2)
  unfold driverStep
  cases D.rrs c.1 c.2 0 <;> cases D.sal c.1 c.2 <;> cases D.temp c.1 c.2 <;>
    simp [setCell, hcond]

theorem driverStep_skip {m n : ℕ} (D : DriverInputs m n) (st : DriverState m n)
    (c : Fin m × Fin n)
    (h : D.rrs c.1 c.2 0 = none ∨ D.sal c.1 c.2 = none ∨ D.temp c.1 c.2 = none) :
    (driverStep D st c).chla = st.chla
    ∧ (driverStep D st c).chlb = st.chlb
    ∧ (driverStep D st c).chlc = st.chlc
    ∧ (driverStep D st c).ppc = st.ppc
    ∧ (driverStep D st c).calls = st.calls := by
  unfold driverStep
  rcases hr : D.rrs c.1 c.2 0 with - | v <;> rcases hs : D.sal c.1 c.2 with - | sv <;>
    rcases ht : D.temp c.1 c.2 with - | tv <;>
      first
      | exact ⟨rfl, rfl, rfl, rfl, rfl⟩
      | (rw [hr, hs, ht] at h; rcases h with h | h | h <;> exact absurd h (by simp))

theorem driverStep_compute {m n : ℕ} (D : DriverInputs m n) (st : DriverState m n)
    (c : Fin m × Fin n) (v sv tv : ℚ)
    (hr : D.rrs c.1 c.2 0 = some v) (hs : D.sal c.1 c.2 = some sv)
    (ht : D.temp c.1 c.2 = some tv) :
    (driverStep D st c).chla c.1 c.2
        = some ((D.inv (D.rrs c.1 c.2) (D.rrsUnc c.1 c.2) D.wl tv sv).headI).1
    ∧ (driverStep D st c).chlb c.1 c.2
        = some ((D.inv (D.rrs c.1 c.2) (D.rrsUnc c.1 c.2) D.wl tv sv).headI).2.1
    ∧ (driverStep D st c).chlc c.1 c.2
        = some ((D.inv (D.rrs c.1 c.2) (D.rrsUnc c.1 c.2) D.wl tv sv).headI).2.2.1
    ∧ (driverStep D st c).ppc c.1 c.2
        = some ((D.inv (D.rrs c.1 c.2) (D.rrsUnc c.1 c.2) D.wl tv sv).headI).2.2.2
    ∧ (driverStep D st c).calls
        = st.calls ++ [⟨c, D.rrs c.1 c.2, D.rrsUnc c.1 c.2, D.wl, tv, sv⟩] := by
  unfold driverStep
  rw [hr, hs, ht]
  simp [setCell]

/-! ### Properties of the fold -/

theorem foldl_driverStep_progress {m n : ℕ} (D : DriverInputs m n) :
    ∀ (L : List (Fin m × Fin n)) (st : DriverState m n),
      (L.foldl (driverStep D) st).progress = st.progress + L.length
      ∧ (L.foldl (driverStep D) st).emitted
          = st.emitted ++ List.range' st.progress L.length := by
  intro L
  induction L with
  | nil => intro st; simp
  | cons c L ih =>
    intro st
    simp only [List.foldl_cons, List.length_cons]
    obtain ⟨hp, he⟩ := driverStep_progress D st c
    obtain ⟨ihp, ihe⟩ := ih (driverStep D st c)
    constructor
    · rw [ihp, hp]; omega
    · rw [ihe, he, hp, List.range'_succ, List.append_assoc]
      rfl

theorem foldl_driverStep_calls {m n : ℕ} (D : DriverInputs m n) :
    ∀ (L : List (Fin m × Fin n)) (st : DriverState m n),
      ∃ new, (L.foldl (driverStep D) st).calls = st.calls ++ new
        ∧ ∀ cl ∈ new, cl.cell ∈ L := by
  intro L
  induction L with
  | nil => intro st; exact ⟨[], by simp, by simp⟩
  | cons c L ih =>
    intro st
    obtain ⟨new1, h1, hc1⟩ := driverStep_calls D st c
    obtain ⟨new2, h2, hc2⟩ := ih (driverStep D st c)
    refine ⟨new1 ++ new2, ?_, ?_⟩
    · rw [List.foldl_cons, h2, h1, List.append_assoc]
    · intro cl hcl
      rcases List.mem_append.mp hcl with hm | hm
      · exact List.mem_cons.mpr (Or.inl (hc1 cl hm))
      · exact List.mem_cons.mpr (Or.inr (hc2 cl hm))

theorem foldl_driverStep_untouched {m n : ℕ} (D : DriverInputs m n) :
    ∀ (L : List (Fin m × Fin n)) (st : DriverState m n) (x : Fin m × Fin n), x ∉ L →
      (L.foldl (driverStep D) st).chla x.1 x.2 = st.chla x.1 x.2
      ∧ (L.foldl (driverStep D) st).chlb x.1 x.2 = st.chlb x.1 x.2
      ∧ (L.foldl (driverStep D) st).chlc x.1 x.2 = st.chlc x.1 x.2
      ∧ (L.foldl (driverStep D) st).ppc x.1 x.2 = st.ppc x.1 x.2 := by
  intro L
  induction L with
  | nil => intro st x _; exact ⟨rfl, rfl, rfl, rfl⟩
  | cons c L ih =>
    intro st x hx
    have hne : x ≠ c := fun he => hx (he ▸ List.mem_cons_self c L)
    have hxL : x ∉ L := fun he => hx (List.mem_cons_of_mem c he)
    obtain ⟨s1, s2, s3, s4⟩ := driverStep_other_cell D st c x hne
    obtain ⟨f1, f2, f3, f4⟩ := ih (driverStep D st c) x hxL
    rw [List.foldl_cons]
    exact ⟨f1.trans s1, f2.trans s2, f3.trans s3, f4.trans s4⟩

/-! ### The cell enumeration -/

theorem cellList_eq_product (m n : ℕ) :
    cellList m n = (List.finRange m).product (List.finRange n) := rfl

theorem cellList_nodup (m n : ℕ) : (cellList m n).Nodup := by
  rw [cellList_eq_product]
  exact List.Nodup.product (List.nodup_finRange m) (List.nodup_finRange n)

theorem mem_cellList {m n : ℕ} (x : Fin m × Fin n) : x ∈ cellList m n := by
  rw [cellList_eq_product]
  rcases x with ⟨i, j⟩
  exact List.pair_mem_product.mpr ⟨List.mem_finRange i, List.mem_finRange j⟩

theorem cellList_length (m n : ℕ) : (cellList m n).length = m * n := by
  rw [cellList_eq_product]
  exact (List.length_product (List.finRange m) (List.finRange n)).trans
    (by rw [List.length_finRange, List.length_finRange])

theorem exists_split {α : Type} {L : List α} {x : α} (hmem : x ∈ L) (hnd : L.Nodup) :
    ∃ L1 L2, L = L1 ++ x :: L2 ∧ x ∉ L1 ∧ x ∉ L2 := by
  obtain ⟨L1, L2, rfl⟩ := List.append_of_mem hmem
  obtain ⟨-, h2, hdis⟩ := List.nodup_append.mp hnd
  obtain ⟨hx2, -⟩ := List.nodup_cons.mp h2
  refine ⟨L1, L2, rfl, ?_, hx2⟩
  intro hx1
  exact hdis hx1 (List.mem_cons_self x L2)

/-! ### Claim C1 -/

/-- C1: a cell whose leading reflectance value, aligned salinity or aligned
temperature is missing is skipped: the inversion function is never invoked
for it and all four of its pigment outputs are still the missing sentinel
when the driver loop completes. -/
theorem driver_skips_missing_cells {m n : ℕ} (D : DriverInputs m n)
    (i : Fin m) (j : Fin n)
    (h : D.rrs i j 0 = none ∨ D.sal i j = none ∨ D.temp i j = none) :
    (∀ cl ∈ (runDriver D).calls, cl.cell ≠ (i, j))
    ∧ (runDriver D).chla i j = none
    ∧ (runDriver D).chlb i j = none
    ∧ (runDriver D).chlc i j = none
    ∧ (runDriver D).ppc i j = none := by
  obtain ⟨L1, L2, hL, hx1, hx2⟩ :=
    exists_split (mem_cellList ((i, j) : Fin m × Fin n)) (cellList_nodup m n)
  have hrun : runDriver D
      = L2.foldl (driverStep D)
          (driverStep D (L1.foldl (driverStep D) (initState m n)) (i, j)) := by
    rw [runDriver, hL, List.foldl_append, List.foldl_cons]
  set st1 := L1.foldl (driverStep D) (initState m n) with hst1
  obtain ⟨ka, kb, kc, kd, kcalls⟩ := driverStep_skip D st1 (i, j) h
  constructor
  · intro cl hcl
    obtain ⟨new2, h2, hc2⟩ := foldl_driverStep_calls D L2 (driverStep D st1 (i, j))
    rw [hrun, h2, kcalls] at hcl
    obtain ⟨new1, h1, hc1⟩ := foldl_driverStep_calls D L1 (initState m n)
    rw [← hst1] at h1
    rw [h1] at hcl
    rcases List.mem_append.mp hcl with hm | hm
    · rcases List.mem_append.mp hm with hm2 | hm2
      · simp [initState] at hm2
      · intro he; exact hx1 (he ▸ hc1 cl hm2)
    · intro he; exact hx2 (he ▸ hc2 cl hm)
  · obtain ⟨f1, f2, f3, f4⟩ :=
      foldl_driverStep_untouched D L2 (driverStep D st1 (i, j)) (i, j) hx2
    obtain ⟨g1, g2, g3, g4⟩ :=
      foldl_driverStep_untouched D L1 (initState m n) (i, j) hx1
    rw [← hst1] at g1 g2 g3 g4
    refine ⟨?_, ?_, ?_, ?_⟩
    · rw [hrun]; rw [f1, ka, g1]; rfl
    · rw [hrun]; rw [f2, kb, g2]; rfl
    · rw [hrun]; rw [f3, kc, g3]; rfl
    · rw [hrun]; rw [f4, kd, g4]; rfl

/-- Witness for C1: a 1×1 grid whose only cell has a missing leading
reflectance value. -/
theorem driver_skips_missing_cells_witness :
    ((⟨fun _ _ _ => none, fun _ _ _ => some 0, [400], fun _ _ => some 30,
        fun _ _ => some 10, fun _ _ _ _ _ => [(1, 2, 3, 4)]⟩ :
        DriverInputs 1 1).rrs 0 0 0 = none
      ∨ (⟨fun _ _ _ => none, fun _ _ _ => some 0, [400], fun _ _ => some 30,
        fun _ _ => some 10, fun _ _ _ _ _ => [(1, 2, 3, 4)]⟩ :
        DriverInputs 1 1).sal 0 0 = none
      ∨ (⟨fun _ _ _ => none, fun _ _ _ => some 0, [400], fun _ _ => some 30,
        fun _ _ => some 10, fun _ _ _ _ _ => [(1, 2, 3, 4)]⟩ :
        DriverInputs 1 1).temp 0 0 = none)
    ∧ ((∀ cl ∈ (runDriver (⟨fun _ _ _ => none, fun _ _ _ => some 0, [400],
          fun _ _ => some 30, fun _ _ => some 10, fun _ _ _ _ _ => [(1, 2, 3, 4)]⟩ :
          DriverInputs 1 1)).calls, cl.cell ≠ (0, 0))
      ∧ (runDriver (⟨fun _ _ _ => none, fun _ _ _ => some 0, [400], fun _ _ => some 30,
          fun _ _ => some 10, fun _ _ _ _ _ => [(1, 2, 3, 4)]⟩ :
          DriverInputs 1 1)).chla 0 0 = none
      ∧ (runDriver (⟨fun _ _ _ => none, fun _ _ _ => some 0, [400], fun _ _ => some 30,
          fun _ _ => some 10, fun _ _ _ _ _ => [(1, 2, 3, 4)]⟩ :
          DriverInputs 1 1)).chlb 0 0 = none
      ∧ (runDriver (⟨fun _ _ _ => none, fun _ _ _ => some 0, [400], fun _ _ => some 30,
          fun _ _ => some 10, fun _ _ _ _ _ => [(1, 2, 3, 4)]⟩ :
          DriverInputs 1 1)).chlc 0 0 = none
      ∧ (runDriver (⟨fun _ _ _ => none, fun _ _ _ => some 0, [400], fun _ _ => some 30,
          fun _ _ => some 10, fun _ _ _ _ _ => [(1, 2, 3, 4)]⟩ :
          DriverInputs 1 1)).ppc 0 0 = none) :=
  ⟨Or.inl rfl,
   driver_skips_missing_cells
     (⟨fun _ _ _ => none, fun _ _ _ => some 0, [400], fun _ _ => some 30,
       fun _ _ => some 10, fun _ _ _ _ _ => [(1, 2, 3, 4)]⟩ : DriverInputs 1 1)
     0 0 (Or.inl rfl)⟩

/-! ### Claim C2 -/

/-- C2: a cell whose leading reflectance value, aligned salinity and aligned
temperature are all present is computed: the inversion function is invoked
with exactly that cell's reflectance spectrum, uncertainty spectrum, the
wavelength coordinates, the aligned temperature and the aligned salinity
(the argument order of line 194), and the four pigment outputs equal the
four components of the FIRST result group of its return value, unchanged
and in order `(chla, chlb, chlc, ppc)`. -/
theorem driver_computes_present_cells {m n : ℕ} (D : DriverInputs m n)
    (i : Fin m) (j : Fin n) (v sv tv : ℚ) (p : Pig4) (rest : List Pig4)
    (hr : D.rrs i j 0 = some v) (hs : D.sal i j = some sv) (ht : D.temp i j = some tv)
    (hinv : D.inv (D.rrs i j) (D.rrsUnc i j) D.wl tv sv = p :: rest) :
    (⟨(i, j), D.rrs i j, D.rrsUnc i j, D.wl, tv, sv⟩ : InvCall m n) ∈ (runDriver D).calls
    ∧ (runDriver D).chla i j = some p.1
    ∧ (runDriver D).chlb i j = some p.2.1
    ∧ (runDriver D).chlc i j = some p.2.2.1
    ∧ (runDriver D).ppc i j = some p.2.2.2 := by
  obtain ⟨L1, L2, hL, hx1, hx2⟩ :=
    exists_split (mem_cellList ((i, j) : Fin m × Fin n)) (cellList_nodup m n)
  have hrun : runDriver D
      = L2.foldl (driverStep D)
          (driverStep D (L1.foldl (driverStep D) (initState m n)) (i, j)) := by
    rw [runDriver, hL, List.foldl_append, List.foldl_cons]
  set st1 := L1.foldl (driverStep D) (initState m n) with hst1
  obtain ⟨ka, kb, kc, kd, kcalls⟩ := driverStep_compute D st1 (i, j) v sv tv hr hs ht
  have hhead : (D.inv (D.rrs i j) (D.rrsUnc i j) D.wl tv sv).headI = p := by
    rw [hinv]; rfl
  rw [hhead] at ka kb kc kd
  constructor
  · obtain ⟨new2, h2, -⟩ := foldl_driverStep_calls D L2 (driverStep D st1 (i, j))
    rw [hrun, h2, kcalls]
    exact List.mem_append_left _ (List.mem_append_right _ (List.mem_singleton.mpr rfl))
  · obtain ⟨f1, f2, f3, f4⟩ :=
      foldl_driverStep_untouched D L2 (driverStep D st1 (i, j)) (i, j) hx2
    exact ⟨by rw [hrun, f1, ka], by rw [hrun, f2, kb], by rw [hrun, f3, kc],
           by rw [hrun, f4, kd]⟩

/-- Driver inputs for the C2 witness: a 1×1 grid with all inputs present and
an inversion function returning the single result group (1, 2, 3, 4). -/
def presentInputsC2 : DriverInputs 1 1 :=
  { rrs := fun _ _ b => if b = 0 then some 5 else none
    rrsUnc := fun _ _ _ => some 1
    wl := [400, 500]
    sal := fun _ _ => some 30
    temp := fun _ _ => some 10
    inv := fun _ _ _ _ _ => [(1, 2, 3, 4)] }

/-- Witness for C2 on a concrete fully-present 1×1 grid. -/
theorem driver_computes_present_cells_witness :
    (presentInputsC2.rrs 0 0 0 = some 5
      ∧ presentInputsC2.sal 0 0 = some 30
      ∧ presentInputsC2.temp 0 0 = some 10
      ∧ presentInputsC2.inv (presentInputsC2.rrs 0 0) (presentInputsC2.rrsUnc 0 0)
          presentInputsC2.wl 10 30 = ((1, 2, 3, 4) : Pig4) :: [])
    ∧ ((⟨(0, 0), presentInputsC2.rrs 0 0, presentInputsC2.rrsUnc 0 0,
          presentInputsC2.wl, 10, 30⟩ : InvCall 1 1) ∈ (runDriver presentInputsC2).calls
      ∧ (runDriver presentInputsC2).chla 0 0 = some 1
      ∧ (runDriver presentInputsC2).chlb 0 0 = some 2
      ∧ (runDriver presentInputsC2).chlc 0 0 = some 3
      ∧ (runDriver presentInputsC2).ppc 0 0 = some 4) :=
  ⟨⟨rfl, rfl, rfl, rfl⟩,
   driver_computes_present_cells presentInputsC2 0 0 5 30 10 (1, 2, 3, 4) []
     rfl rfl rfl rfl⟩

/-! ### Claim C5 -/

theorem range'_getLast? : ∀ (N s : ℕ), (List.range' s (N + 1)).getLast? = some (s + N) := by
  intro N
  induction N with
  | zero => intro s; rfl
  | succ N ih =>
    intro s
    rw [List.range'_succ]
    have h2 : List.range' (s + 1) (N + 1) = (s + 1) :: List.range' (s + 1 + 1) N :=
      List.range'_succ (s + 1) N 1
    rw [h2, List.getLast?_cons_cons, ← h2, ih (s + 1)]
    congr 1
    omega

/-- C5: over a box-restricted grid of `m * n` cells, the progress counter is
emitted exactly once per attempted cell — skipped or computed alike — and
the emitted sequence is exactly 1, 2, …, m·n (strictly increasing and
contiguous), so the final emitted counter value equals the total cell
count. -/
theorem driver_progress_contract {m n : ℕ} (D : DriverInputs m n) :
    (runDriver D).emitted = List.range' 1 (m * n)
    ∧ (runDriver D).emitted.length = (cellList m n).length
    ∧ (runDriver D).emitted.getLast?
        = if m * n = 0 then none else some (m * n) := by
  obtain ⟨-, he⟩ := foldl_driverStep_progress D (cellList m n) (initState m n)
  have hemit : (runDriver D).emitted = List.range' 1 (m * n) := by
    rw [runDriver, he, cellList_length]
    rfl
  refine ⟨hemit, ?_, ?_⟩
  · rw [hemit, List.length_range', cellList_length]
  · rw [hemit]
    cases hmn : m * n with
    | zero => rfl
    | succ N =>
      rw [if_neg (Nat.succ_ne_zero N), range'_getLast?]
      congr 1
      omega

/-! ### Claim C9 -/

/-- The box-restricted reflectance subset `rrs_box` as a carrier structure:
per-cell spectra plus the per-pixel latitude/longitude coordinates it kept
from the navigation data (lines 114-118, 136-144). -/
structure RrsBox (m n : ℕ) where
  data : Fin m → Fin n → Spectrum
  lat : Fin m → Fin n → ℚ
  lon : Fin m → Fin n → ℚ

/-- The dataset returned by `estimate_inv_pigments` (line 200): the
reflectance subset augmented with the four pigment fields written by the
driver. -/
structure ResultGrid (m n : ℕ) where
  rrsData : Fin m → Fin n → Spectrum
  lat : Fin m → Fin n → ℚ
  lon : Fin m → Fin n → ℚ
  chla : Fin m → Fin n → Option ℚ
  chlb : Fin m → Fin n → Option ℚ
  chlc : Fin m → Fin n → Option ℚ
  ppc : Fin m → Fin n → Option ℚ

/-- Lines 173-176 and 200: `rrs_box` with the four driver-written pigment
fields attached, returned to the caller. -/
def assembleResult {m n : ℕ} (B : RrsBox m n) (D : DriverInputs m n) : ResultGrid m n :=
  { rrsData := B.data
    lat := B.lat
    lon := B.lon
    chla := (runDriver D).chla
    chlb := (runDriver D).chlb
    chlc := (runDriver D).chlc
    ppc := (runDriver D).ppc }

theorem driverStep_preserves_written_called {m n : ℕ} (D : DriverInputs m n)
    (st : DriverState m n) (c : Fin m × Fin n)
    (hst : ∀ i j, (st.chla i j ≠ none ∨ st.chlb i j ≠ none
        ∨ st.chlc i j ≠ none ∨ st.ppc i j ≠ none) →
      ∃ cl ∈ st.calls, cl.cell = (i, j)) :
    ∀ i j, ((driverStep D st c).chla i j ≠ none ∨ (driverStep D st c).chlb i j ≠ none
        ∨ (driverStep D st c).chlc i j ≠ none ∨ (driverStep D st c).ppc i j ≠ none) →
      ∃ cl ∈ (driverStep D st c).calls, cl.cell = (i, j) := by
  intro i j hij
  obtain ⟨new, hcalls, -⟩ := driverStep_calls D st c
  by_cases hx : ((i, j) : Fin m × Fin n) = c
  · rcases hr : D.rrs c.1 c.2 0 with - | v <;> rcases hs : D.sal c.1 c.2 with - | sv <;>
      rcases ht : D.temp c.1 c.2 with - | tv
    case pos.some.some.some =>
      obtain ⟨-, -, -, -, kcalls⟩ := driverStep_compute D st c v sv tv hr hs ht
      refine ⟨⟨c, D.rrs c.1 c.2, D.rrsUnc c.1 c.2, D.wl, tv, sv⟩, ?_, hx.symm⟩
      rw [kcalls]
      exact List.mem_append_right _ (List.mem_singleton.mpr rfl)
    all_goals
      obtain ⟨ka, kb, kc, kd, kcalls⟩ := driverStep_skip D st c (by
        first
        | exact Or.inl hr
        | exact Or.inr (Or.inl hs)
        | exact Or.inr (Or.inr ht))
      rw [ka, kb, kc, kd] at hij
      obtain ⟨cl, hcl, hcc⟩ := hst i j hij
      exact ⟨cl, by rw [kcalls]; exact hcl, hcc⟩
  · obtain ⟨s1, s2, s3, s4⟩ := driverStep_other_cell D st c (i, j) hx
    rw [s1, s2, s3, s4] at hij
    obtain ⟨cl, hcl, hcc⟩ := hst i j hij
    exact ⟨cl, by rw [hcalls]; exact List.mem_append_left _ hcl, hcc⟩

theorem foldl_overwrites_only_called {m n : ℕ} (D : DriverInputs m n) :
    ∀ (L : List (Fin m × Fin n)) (st : DriverState m n),
      (∀ i j, (st.chla i j ≠ none ∨ st.chlb i j ≠ none
          ∨ st.chlc i j ≠ none ∨ st.ppc i j ≠ none) →
        ∃ cl ∈ st.calls, cl.cell = (i, j)) →
      ∀ i j, ((L.foldl (driverStep D) st).chla i j ≠ none
          ∨ (L.foldl (driverStep D) st).chlb i j ≠ none
          ∨ (L.foldl (driverStep D) st).chlc i j ≠ none
          ∨ (L.foldl (driverStep D) st).ppc i j ≠ none) →
        ∃ cl ∈ (L.foldl (driverStep D) st).calls, cl.cell = (i, j) := by
  intro L
  induction L with
  | nil => intro st hst; exact hst
  | cons c L ih =>
    intro st hst
    rw [List.foldl_cons]
    exact ih (driverStep D st c) (driverStep_preserves_written_called D st c hst)

/-- C9: the four pigment fields are allocated at the box-restricted grid
shape and initialized to the missing sentinel before the driver runs
(`initState`); after the driver completes, a cell holding a non-missing
pigment value was necessarily written by an inversion call for that very
cell (all other cells keep their initial missing value); and the returned
structure is the reflectance subset augmented with the four driver-written
fields, carrying the subset's original per-pixel latitude/longitude
coordinates. -/
theorem pigment_fields_lifecycle {m n : ℕ} (B : RrsBox m n) (D : DriverInputs m n) :
    ((initState m n).chla = (fun _ _ => (none : Option ℚ))
      ∧ (initState m n).chlb = (fun _ _ => (none : Option ℚ))
      ∧ (initState m n).chlc = (fun _ _ => (none : Option ℚ))
      ∧ (initState m n).ppc = (fun _ _ => (none : Option ℚ)))
    ∧ (∀ i j, ((runDriver D).chla i j ≠ none ∨ (runDriver D).chlb i j ≠ none
        ∨ (runDriver D).chlc i j ≠ none ∨ (runDriver D).ppc i j ≠ none) →
      ∃ cl ∈ (runDriver D).calls, cl.cell = (i, j))
    ∧ ((assembleResult B D).rrsData = B.data
      ∧ (assembleResult B D).lat = B.lat
      ∧ (assembleResult B D).lon = B.lon
      ∧ (assembleResult B D).chla = (runDriver D).chla
      ∧ (assembleResult B D).chlb = (runDriver D).chlb
      ∧ (assembleResult B D).chlc = (runDriver D).chlc
      ∧ (assembleResult B D).ppc = (runDriver D).ppc) := by
  refine ⟨⟨rfl, rfl, rfl, rfl⟩, ?_, rfl, rfl, rfl, rfl, rfl, rfl, rfl⟩
  exact foldl_overwrites_only_called D (cellList m n) (initState m n)
    (fun i j hij => absurd hij (by simp [initState]))

/-- Driver inputs for the C9 witness: a fully-present 1×1 grid. -/
def presentInputsC9 : DriverInputs 1 1 :=
  { rrs := fun _ _ _ => some 7
    rrsUnc := fun _ _ _ => some 1
    wl := [400]
    sal := fun _ _ => some 31
    temp := fun _ _ => some 12
    inv := fun _ _ _ _ _ => [(9, 8, 7, 6)] }

/-- The reflectance subset for the C9 witness. -/
def boxC9 : RrsBox 1 1 :=
  { data := fun _ _ _ => some 7
    lat := fun _ _ => 44
    lon := fun _ _ => -63 }

/-- Witness for C9: on the concrete fully-present 1×1 grid, the only cell is
written (so it is non-missing) and the theorem yields an inversion call for
that cell; the assembled result carries the subset data and coordinates. -/
theorem pigment_fields_lifecycle_witness :
    (runDriver presentInputsC9).chla 0 0 ≠ none
    ∧ (∃ cl ∈ (runDriver presentInputsC9).calls, cl.cell = ((0, 0) : Fin 1 × Fin 1))
    ∧ (initState 1 1).chla = (fun _ _ => (none : Option ℚ))
    ∧ (assembleResult boxC9 presentInputsC9).rrsData = boxC9.data
    ∧ (assembleResult boxC9 presentInputsC9).lat = boxC9.lat
    ∧ (assembleResult boxC9 presentInputsC9).lon = boxC9.lon
    ∧ (assembleResult boxC9 presentInputsC9).chla = (runDriver presentInputsC9).chla :=
  ⟨by decide,
   (pigment_fields_lifecycle boxC9 presentInputsC9).2.1 0 0 (Or.inl (by decide)),
   (pigment_fields_lifecycle boxC9 presentInputsC9).1.1,
   (pigment_fields_lifecycle boxC9 presentInputsC9).2.2.1,
   (pigment_fields_lifecycle boxC9 presentInputsC9).2.2.2.1,
   (pigment_fields_lifecycle boxC9 presentInputsC9).2.2.2.2.1,
   (pigment_fields_lifecycle boxC9 presentInputsC9).2.2.2.2.2.1⟩

end L2Utils
